import Mathlib

/-!
Verification development for the usage-monitor application.

The embedding below models, in Lean, the output sanitizer and extractor
(`stripAnsi`, `parseUsageOutput`), the terminal-automation engine's
decision/settle protocol and prompt-recognition handler (`fetchUsage`'s
`finish`/`settle`, the `onData` handler), and the account scheduler
(`checkAndNotify`, `getNextBackoff`, `scheduleRetry`, `fetchAccountUsage`,
`fetchAllUsage`, `resetNotificationRecord`) from the TypeScript sources.

Conventions of the embedding:
* JavaScript strings are `List Char` (also exposed as `String` at the API
  boundary); `Date` values are `Nat` timestamps and every call that reads
  the clock (`new Date()`) takes the current time as an explicit `now`
  argument; `undefined`/absent values are `Option`.
* The specific regular expressions of the source are compiled by hand into
  executable matchers with JavaScript semantics (leftmost match, greedy and
  lazy quantifiers with backtracking where it can matter; the `i` flag is
  ASCII case folding, which is exact on the ASCII prompt text involved).
* `Map` objects keyed by account id are total functions `String → Option _`.
* Mutation of module-level state is explicit state passing; `setTimeout`
  callbacks are modelled as separate transition functions invoked by an
  event, and timers as armed/spent flags.
-/

namespace UsageMonitor

/-! ### Character and string helpers (JS primitives used by the source) -/

/-- ASCII case folding used to model the `i` regex flag (exact for the
ASCII-only patterns and prompts of the source). -/
def lcase (c : Char) : Char :=
  if 'A' ≤ c ∧ c ≤ 'Z' then Char.ofNat (c.toNat + 32) else c

/-- JS `\s` on the whitespace characters that can occur in terminal output. -/
def isWS (c : Char) : Bool :=
  c = ' ' || c = '\t' || c = '\n' || c = '\r' || c = '\x0b' || c = '\x0c'

/-- Greedy `\s*`: consume the maximal run of whitespace. -/
def dropWS (s : List Char) : List Char := s.dropWhile isWS

/-- Case-insensitive literal match: if `pat` (given lowercase) is a prefix of
`s` up to ASCII case, return the remainder of `s`. -/
def stripLitCI : List Char → List Char → Option (List Char)
  | [], s => some s
  | _ :: _, [] => none
  | p :: ps, c :: cs => if lcase c = lcase p then stripLitCI ps cs else none

/-- JS `parseInt(ds, 10)` on a nonempty run of decimal digits. -/
def digitsToNat (ds : List Char) : Nat :=
  ds.foldl (fun n c => n * 10 + (c.toNat - '0'.toNat)) 0

/-- JS `String.prototype.includes`: `needle` occurs contiguously in `hay`. -/
def containsStr (hay : List Char) (needle : List Char) : Bool :=
  match hay with
  | [] => needle.isEmpty
  | _ :: t => needle.isPrefixOf hay || containsStr t needle

/-! ### `stripAnsi` — the ANSI/VT escape stripper

The source regex (replaced globally by the empty string) is: an ESC byte
followed by either a single byte in 0x40 to 0x5A or 0x5C to 0x5F, or by an
opening bracket, parameter bytes, intermediate bytes and a final byte. -/

/-- Match the tail of a CSI sequence after `ESC [`: parameter bytes
(range 0x30 to 0x3F, any number), intermediate bytes (range 0x20 to 0x2F,
any number), then one final byte (range 0x40 to 0x7E); returns the
remainder after the final byte.  Greedy maximal munch is exact here: a byte
given back by either starred class can never satisfy the next part. -/
def csiEnd (r : List Char) : Option (List Char) :=
  let r1 := r.dropWhile (fun c => decide ('0' ≤ c) && decide (c ≤ '?'))
  let r2 := r1.dropWhile (fun c => decide (' ' ≤ c) && decide (c ≤ '/'))
  match r2 with
  | f :: r3 => if '@' ≤ f ∧ f ≤ '~' then some r3 else none
  | [] => none

theorem csiEnd_length_le {r r3 : List Char} (h : csiEnd r = some r3) :
    r3.length < r.length + 1 := by
  have h1 : (r.dropWhile (fun c => decide ('0' ≤ c) && decide (c ≤ '?'))).length ≤ r.length :=
    (List.dropWhile_suffix _).sublist.length_le
  have h2 : ((r.dropWhile (fun c => decide ('0' ≤ c) && decide (c ≤ '?'))).dropWhile
      (fun c => decide (' ' ≤ c) && decide (c ≤ '/'))).length ≤
      (r.dropWhile (fun c => decide ('0' ≤ c) && decide (c ≤ '?'))).length :=
    (List.dropWhile_suffix _).sublist.length_le
  unfold csiEnd at h
  dsimp only at h
  revert h
  match h3 : (r.dropWhile (fun c => decide ('0' ≤ c) && decide (c ≤ '?'))).dropWhile
      (fun c => decide (' ' ≤ c) && decide (c ≤ '/')) with
  | [] => intro h; exact absurd h (by simp)
  | f :: r3' =>
    intro h
    dsimp only at h
    rw [h3] at h2
    by_cases hf : '@' ≤ f ∧ f ≤ '~'
    · rw [if_pos hf] at h
      cases h
      simp only [List.length_cons] at h2
      omega
    · rw [if_neg hf] at h; exact absurd h (by simp)

/-- Global replacement of the escape-sequence regex by the empty string,
scanning left to right and resuming after each match (JS `replace` with the
`g` flag); where no match starts, the character is kept and scanning resumes
at the next character.  The fuel argument (instantiated with the input
length, an upper bound on the number of scan steps, each of which consumes
at least one character) makes the recursion structural so that the
function reduces definitionally; the fuel-exhausted branch is unreachable. -/
def stripAnsiGo : Nat → List Char → List Char
  | 0, s => s
  | _ + 1, [] => []
  | _ + 1, [c] => [c]
  | fuel + 1, c :: d :: rest2 =>
    if c = '\x1b' then
      if ('@' ≤ d ∧ d ≤ 'Z') ∨ ('\\' ≤ d ∧ d ≤ '_') then stripAnsiGo fuel rest2
      else if d = '[' then
        match csiEnd rest2 with
        | some r3 => stripAnsiGo fuel r3
        | none => c :: d :: stripAnsiGo fuel rest2
      else c :: stripAnsiGo fuel (d :: rest2)
    else c :: stripAnsiGo fuel (d :: rest2)

/-- `stripAnsi` from the engine source. -/
def stripAnsi (s : List Char) : List Char := stripAnsiGo s.length s

/-! ### The four extraction regexes of `parseUsageOutput` -/

/-- The lazy scan `[\s\S]*?(\d+)%\s*used` (case-insensitive): find the
earliest position holding a digit run followed by `%`, optional whitespace
and `used`; capture the digit run.  `(\d+)` greedy maximal munch is exact:
a digit given back can never match `%`. -/
def pctUsedFrom : List Char → Option Nat
  | [] => none
  | s@(c :: rest) =>
    if c.isDigit then
      let ds := s.takeWhile Char.isDigit
      match s.dropWhile Char.isDigit with
      | '%' :: r2 =>
        if (stripLitCI ("used".toList) (dropWS r2)).isSome then some (digitsToNat ds)
        else pctUsedFrom rest
      | _ => pctUsedFrom rest
    else pctUsedFrom rest

/-- Anchored `Current\s*<kw>` (case-insensitive), returning the remainder. -/
def currentKwAt (kw : List Char) (s : List Char) : Option (List Char) :=
  (stripLitCI ("current".toList) s).bind fun r0 => stripLitCI kw (dropWS r0)

/-- `/Current\s*<kw>[\s\S]*?(\d+)%\s*used/i` — leftmost match over the whole
string, returning the captured percentage. -/
def findCurrentPct (kw : List Char) : List Char → Option Nat
  | [] => none
  | s@(_ :: rest) =>
    match currentKwAt kw s with
    | some r =>
      match pctUsedFrom r with
      | some n => some n
      | none => findCurrentPct kw rest
    | none => findCurrentPct kw rest

/-- `am|pm` (case-insensitive), returning the two matched characters as they
appear in the input together with the remainder. -/
def stripAmPm (s : List Char) : Option (List Char × List Char) :=
  match s with
  | a :: b :: r =>
    if (lcase a = 'a' ∨ lcase a = 'p') ∧ lcase b = 'm' then some ([a, b], r) else none
  | _ => none

/-- Anchored `Rese[ts]+\s*(\d+(?:am|pm)[^)]*\))` (case-insensitive),
returning the capture.  Greedy `[ts]+`, `\d+` and `[^)]*` maximal munch is
exact: a given-back character can never satisfy the following part. -/
def sessionResetAt (s : List Char) : Option (List Char) :=
  (stripLitCI ("rese".toList) s).bind fun r0 =>
    let isTS := fun c => lcase c = 't' || lcase c = 's'
    let ts := r0.takeWhile isTS
    let r1 := r0.dropWhile isTS
    if ts.isEmpty then none
    else
      let r2 := dropWS r1
      let ds := r2.takeWhile Char.isDigit
      let r3 := r2.dropWhile Char.isDigit
      if ds.isEmpty then none
      else
        (stripAmPm r3).bind fun ap =>
          let mid := ap.2.takeWhile (fun c => c ≠ ')')
          match ap.2.dropWhile (fun c => c ≠ ')') with
          | ')' :: _ => some (ds ++ ap.1 ++ mid ++ [')'])
          | _ => none

/-- Leftmost match of the session reset-time regex. -/
def findSessionReset : List Char → Option (List Char)
  | [] => none
  | s@(_ :: rest) =>
    match sessionResetAt s with
    | some cap => some cap
    | none => findSessionReset rest

/-- The month alternation `Jan|Feb|Mar|Apr|May|Jun|Jul|Aug|Sep|Oct|Nov|Dec`
(case-insensitive), tried in the source's order; returns the matched
characters as written in the input and the remainder. -/
def tryMonths : List String → List Char → Option (List Char × List Char)
  | [], _ => none
  | m :: ms, s =>
    match stripLitCI m.toList s with
    | some r => some (s.take m.length, r)
    | none => tryMonths ms s

def monthNames : List String :=
  ["jan", "feb", "mar", "apr", "may", "jun", "jul", "aug", "sep", "oct", "nov", "dec"]

/-- The part of the weekly reset-time regex after the optional `s`:
`\s*((Jan|…|Dec)[^)]+\))`, returning the capture. -/
def weeklyTail (r : List Char) : Option (List Char) :=
  (tryMonths monthNames (dropWS r)).bind fun mr =>
    let mid := mr.2.takeWhile (fun c => c ≠ ')')
    if mid.isEmpty then none
    else
      match mr.2.dropWhile (fun c => c ≠ ')') with
      | ')' :: _ => some (mr.1 ++ mid ++ [')'])
      | _ => none

/-- Anchored `Resets?\s*((?:Jan|…|Dec)[^)]+\))` (case-insensitive).  The
greedy optional `s?` needs genuine backtracking (an `S` could instead start
`Sep`), so both alternatives are tried in the greedy order. -/
def weeklyResetAt (s : List Char) : Option (List Char) :=
  (stripLitCI ("reset".toList) s).bind fun r0 =>
    match r0 with
    | c :: r1 =>
      if lcase c = 's' then
        match weeklyTail r1 with
        | some cap => some cap
        | none => weeklyTail r0
      else weeklyTail r0
    | [] => weeklyTail r0

/-- Leftmost match of the weekly reset-time regex. -/
def findWeeklyReset : List Char → Option (List Char)
  | [] => none
  | s@(_ :: rest) =>
    match weeklyResetAt s with
    | some cap => some cap
    | none => findWeeklyReset rest

/-! ### `parseUsageOutput` -/

/-- The record returned by a non-null `parseUsageOutput` (the
`Partial<UsageData>` literal built in the source: every listed field is
present). -/
structure ParsedUsage where
  currentSession : Nat
  sessionResetTime : String
  weeklyUsage : Nat
  weeklyResetTime : String
  lastUpdated : Nat
deriving DecidableEq

/-- `parseUsageOutput` from the engine source.  `now` is the value of the
`new Date()` evaluated when building the result record. -/
def parseUsageOutput (now : Nat) (output : String) : Option ParsedUsage :=
  let cleaned := stripAnsi output.toList
  let sessionMatch := findCurrentPct ("session".toList) cleaned
  let sessionResetMatch := findSessionReset cleaned
  let weeklyMatch := findCurrentPct ("week".toList) cleaned
  let weeklyResetMatch := findWeeklyReset cleaned
  if sessionMatch.isNone && weeklyMatch.isNone then none
  else some
    { currentSession := sessionMatch.getD 0
      sessionResetTime := String.mk (sessionResetMatch.getD [])
      weeklyUsage := weeklyMatch.getD 0
      weeklyResetTime := String.mk (weeklyResetMatch.getD [])
      lastUpdated := now }

/-! ### Data model of the scheduler and store -/

/-- `UsageData` from the shared types module.  `lastUpdated` is declared as a
`Date` but the scheduler stores `undefined` in it on some failure paths, so
it is an `Option`; the optional `retrying` flag is a `Bool` (absent =
`false`, matching JS truthiness of `undefined`). -/
structure UsageData where
  accountId : String
  currentSession : Nat
  sessionResetTime : String
  weeklyUsage : Nat
  weeklyResetTime : String
  lastUpdated : Option Nat
  error : Option String
  retrying : Bool
deriving DecidableEq

/-- The `Partial<UsageData>` consumed by the scheduler from the engine: each
field may be absent (the scheduler applies `?? 0` / `?? ''` defaults). -/
structure PartialUsage where
  currentSession : Option Nat
  sessionResetTime : Option String
  weeklyUsage : Option Nat
  weeklyResetTime : Option String
deriving DecidableEq

/-- The engine result record actually produced by `parseUsageOutput` has all
four fields present. -/
def toPartial (p : ParsedUsage) : PartialUsage :=
  { currentSession := some p.currentSession
    sessionResetTime := some p.sessionResetTime
    weeklyUsage := some p.weeklyUsage
    weeklyResetTime := some p.weeklyResetTime }

/-- `Account` from the shared types module. -/
structure Account where
  id : String
  name : String
  configDir : String
  isActive : Bool
deriving DecidableEq

/-- Pointwise update of a `Map` modelled as a total function. -/
def setFun {α : Type} (m : String → α) (k : String) (v : α) : String → α :=
  fun x => if x = k then v else m x

/-! ### Threshold notifications (`checkAndNotify`, `resetNotificationRecord`) -/

def ALERT_THRESHOLDS : List Nat := [80, 90, 100]

/-- The per-account value of `notifiedThresholds`: the session and weekly
threshold lists already fired. -/
structure NotifRecord where
  session : List Nat
  weekly : List Nat
deriving DecidableEq

/-- The alert dimension (third argument of the notification callback). -/
inductive Dim where
  | session
  | weekly
deriving DecidableEq

/-- One notification callback invocation.  The real callback receives
`(accountName, threshold, dim)`; the account id of the call site is
recorded alongside for specification purposes (deduplication in the source
is keyed by account id). -/
structure Alert where
  accountId : String
  accountName : String
  threshold : Nat
  dim : Dim
deriving DecidableEq

/-- The scheduler's notification state: whether `setNotificationCallback`
has registered a callback, and the `notifiedThresholds` map. -/
structure NotifState where
  hasCallback : Bool
  notified : String → Option NotifRecord

/-- One `for (const threshold of ALERT_THRESHOLDS)` loop of
`checkAndNotify`: for each threshold in order, if the reading is at or
above it and it is not in the fired list, emit a notification and push it.
Returns the emitted thresholds in order and the updated fired list. -/
def fireLoop (value : Nat) : List Nat → List Nat → List Nat × List Nat
  | [], fired => ([], fired)
  | t :: ts, fired =>
    if t ≤ value ∧ fired.contains t = false then
      let rest := fireLoop value ts (fired ++ [t])
      (t :: rest.1, rest.2)
    else fireLoop value ts fired

/-- `checkAndNotify` from the scheduler source: returns the updated
notification state and the list of emitted alerts. -/
def checkAndNotify (s : NotifState) (accountId accountName : String)
    (currentSession weeklyUsage : Nat) : NotifState × List Alert :=
  if s.hasCallback = false then (s, [])
  else
    let record := (s.notified accountId).getD { session := [], weekly := [] }
    let sr := fireLoop currentSession ALERT_THRESHOLDS record.session
    let wr := fireLoop weeklyUsage ALERT_THRESHOLDS record.weekly
    let notified2 := setFun s.notified accountId (some { session := sr.2, weekly := wr.2 })
    ({ s with notified := notified2 },
      sr.1.map (fun t => { accountId := accountId, accountName := accountName,
                           threshold := t, dim := Dim.session })
        ++ wr.1.map (fun t => { accountId := accountId, accountName := accountName,
                                threshold := t, dim := Dim.weekly }))

/-- `resetNotificationRecord` from the scheduler source. -/
def resetNotificationRecord (s : NotifState) (accountId : String) : NotifState :=
  { s with notified := setFun s.notified accountId none }

/-- One reading handed to `checkAndNotify` (account and its two
percentages). -/
structure Reading where
  accountId : String
  accountName : String
  currentSession : Nat
  weeklyUsage : Nat

/-- A sequence of subsequent `checkAndNotify` invocations (no intervening
`resetNotificationRecord`), collecting all emitted alerts. -/
def runChecks (s : NotifState) : List Reading → NotifState × List Alert
  | [] => (s, [])
  | r :: rs =>
    let step := checkAndNotify s r.accountId r.accountName r.currentSession r.weeklyUsage
    let rest := runChecks step.1 rs
    (rest.1, step.2 ++ rest.2)

/-! ### Exponential backoff -/

def INITIAL_BACKOFF_MS : Nat := 5000

def MAX_BACKOFF_MS : Nat := 180000

/-- `getNextBackoff` from the scheduler source, acting on one account's
entry of `backoffState` (`none` = absent): returns the delay to use now and
the stored next value. -/
def getNextBackoff (state : Option Nat) : Nat × Option Nat :=
  let current := state.getD INITIAL_BACKOFF_MS
  let next := min (current * 2) MAX_BACKOFF_MS
  (current, some next)

/-- `resetBackoff` from the scheduler source (`backoffState.delete`). -/
def resetBackoff (_state : Option Nat) : Option Nat := none

/-- The account's `backoffState` entry after `n` consecutive
`getNextBackoff` calls starting from absent. -/
def backoffIter : Nat → Option Nat
  | 0 => none
  | n + 1 => (getNextBackoff (backoffIter n)).2

/-- The delay used for the `n`-th consecutive retry (`n ≥ 1`): the value
`getNextBackoff` returns on its `n`-th call. -/
def nthRetryDelay (n : Nat) : Nat := (getNextBackoff (backoffIter (n - 1))).1

/-! ### Scheduler state and per-account acquisition -/

/-- The scheduler module's mutable state: the usage cache of the store, the
backoff map, which accounts have a pending retry timer, the notification
state, the round-concurrency flag, and an instrumentation counter of engine
invocations (`fetchUsage` calls). -/
structure SchedulerState where
  cache : String → Option UsageData
  backoff : String → Option Nat
  retryTimerActive : String → Bool
  notif : NotifState
  isFetching : Bool
  fetchCount : Nat

/-- The success-path `UsageData` literal shared by `fetchAccountUsage` and
the retry callback (`usage.x ?? default`, `lastUpdated: new Date()`). -/
def successData (a : String) (usage : PartialUsage) (now : Nat) : UsageData :=
  { accountId := a
    currentSession := usage.currentSession.getD 0
    sessionResetTime := usage.sessionResetTime.getD ""
    weeklyUsage := usage.weeklyUsage.getD 0
    weeklyResetTime := usage.weeklyResetTime.getD ""
    lastUpdated := some now
    error := none
    retrying := false }

/-- The failure-path `UsageData` literal of `fetchAccountUsage`'s catch
block: preserve cached fields, `lastUpdated: cached?.lastUpdated ??
undefined`, `retrying: true`. -/
def roundFailData (a : String) (cached : Option UsageData) : UsageData :=
  { accountId := a
    currentSession := (cached.map (fun c => c.currentSession)).getD 0
    sessionResetTime := (cached.map (fun c => c.sessionResetTime)).getD ""
    weeklyUsage := (cached.map (fun c => c.weeklyUsage)).getD 0
    weeklyResetTime := (cached.map (fun c => c.weeklyResetTime)).getD ""
    lastUpdated := cached.bind (fun c => c.lastUpdated)
    error := none
    retrying := true }

/-- The failure-path `UsageData` of the retry callback's catch block:
like `roundFailData` but `lastUpdated: cached?.lastUpdated ?? new Date()`,
then overwritten with `undefined` when `!cached?.lastUpdated ||
cached?.retrying`. -/
def retryFailData (a : String) (cached : Option UsageData) (now : Nat) : UsageData :=
  let base : UsageData :=
    { accountId := a
      currentSession := (cached.map (fun c => c.currentSession)).getD 0
      sessionResetTime := (cached.map (fun c => c.sessionResetTime)).getD ""
      weeklyUsage := (cached.map (fun c => c.weeklyUsage)).getD 0
      weeklyResetTime := (cached.map (fun c => c.weeklyResetTime)).getD ""
      lastUpdated := some ((cached.bind (fun c => c.lastUpdated)).getD now)
      error := none
      retrying := true }
  if (cached.bind (fun c => c.lastUpdated)).isNone
      || (cached.map (fun c => c.retrying)).getD false then
    { base with lastUpdated := none }
  else base

/-- `scheduleRetry`'s synchronous part: cancel any pending retry timer for
the account, advance the backoff state, and arm a fresh timer; returns the
delay passed to `setTimeout`. -/
def scheduleRetry (st : SchedulerState) (a : String) : SchedulerState × Nat :=
  let st1 := { st with retryTimerActive := setFun st.retryTimerActive a false }
  let p := getNextBackoff (st1.backoff a)
  ({ st1 with backoff := setFun st1.backoff a p.2
              retryTimerActive := setFun st1.retryTimerActive a true }, p.1)

/-- `fetchAccountUsage` from the scheduler source.  `outcome` is the result
of the awaited engine call `fetchUsage(configDir)` (`some` = resolved,
`none` = rejected); `now` the time of the `new Date()` on success.  Returns
the new state, the `UsageData` returned to the round loop, and the alerts
emitted by `checkAndNotify`. -/
def fetchAccountUsage (st : SchedulerState) (a nm : String)
    (outcome : Option PartialUsage) (now : Nat) :
    SchedulerState × UsageData × List Alert :=
  let st0 := { st with fetchCount := st.fetchCount + 1 }
  match outcome with
  | some usage =>
    let data := successData a usage now
    let st1 := { st0 with cache := setFun st0.cache a (some data)
                          backoff := setFun st0.backoff a (resetBackoff (st0.backoff a))
                          retryTimerActive := setFun st0.retryTimerActive a false }
    let r := checkAndNotify st1.notif a nm data.currentSession data.weeklyUsage
    ({ st1 with notif := r.1 }, data, r.2)
  | none =>
    let data := roundFailData a (st0.cache a)
    let st1 := { st0 with cache := setFun st0.cache a (some data) }
    ((scheduleRetry st1 a).1, data, [])

/-- The retry timer callback body installed by `scheduleRetry`: the timer
first removes itself from `retryTimers`, then re-attempts the acquisition;
on success it stores fresh data and clears backoff, on failure it stores a
`retrying` snapshot built from the cache and reschedules itself. -/
def retryAttempt (st : SchedulerState) (a nm : String)
    (outcome : Option PartialUsage) (now : Nat) :
    SchedulerState × List Alert :=
  let st0 := { st with retryTimerActive := setFun st.retryTimerActive a false
                       fetchCount := st.fetchCount + 1 }
  match outcome with
  | some usage =>
    let data := successData a usage now
    let st1 := { st0 with cache := setFun st0.cache a (some data)
                          backoff := setFun st0.backoff a (resetBackoff (st0.backoff a)) }
    let r := checkAndNotify st1.notif a nm data.currentSession data.weeklyUsage
    ({ st1 with notif := r.1 }, r.2)
  | none =>
    let data := retryFailData a (st0.cache a) now
    let st1 := { st0 with cache := setFun st0.cache a (some data) }
    ((scheduleRetry st1 a).1, [])

/-! ### Rounds (`fetchAllUsage`) -/

/-- The sequential account loop of `fetchAllUsage`: active accounts are
acquired one at a time in list order, collecting per-account results. -/
def roundLoop (st : SchedulerState) (accounts : List Account)
    (outcome : String → Option PartialUsage) (now : Nat)
    (results : String → Option UsageData) :
    SchedulerState × (String → Option UsageData) :=
  match accounts with
  | [] => (st, results)
  | acct :: rest =>
    if acct.isActive then
      let r := fetchAccountUsage st acct.id acct.name (outcome acct.id) now
      roundLoop r.1 rest outcome now (setFun results acct.id (some r.2.1))
    else roundLoop st rest outcome now results

/-- `fetchAllUsage` from the scheduler source.  `accounts` is the account
list read from settings; `outcome` gives each account's engine result.  If
`isFetching` is already set the call returns the existing usage cache and
performs nothing; otherwise it sets the flag, runs the round loop, and
clears the flag (the source's `finally`) when the round completes. -/
def fetchAllUsage (st : SchedulerState) (accounts : List Account)
    (outcome : String → Option PartialUsage) (now : Nat) :
    SchedulerState × (String → Option UsageData) :=
  if st.isFetching then (st, st.cache)
  else
    let r := roundLoop { st with isFetching := true } accounts outcome now (fun _ => none)
    ({ r.1 with isFetching := false }, r.2)

/-! ### Engine decision/settle protocol (`fetchUsage`'s `finish`/`settle`)

The control state of one `fetchUsage` invocation.  `settled` is the state
of the outer JS promise: `none` while pending, `some outcome` once resolved
(`some r`) or rejected (`none` payload).  A JS promise ignores further
`resolve`/`reject` calls after the first, which is modelled by `settleProc`
leaving an already-`some` `settled` unchanged.  Timers (`timeout`,
`killSafety`) are armed/spent flags; a fired or cleared timer cannot fire
again. -/

structure EngineState where
  decided : Bool
  exited : Bool
  pending : Option (Option ParsedUsage)
  timeoutArmed : Bool
  killSafetyArmed : Bool
  settled : Option (Option ParsedUsage)
deriving DecidableEq

/-- The state at the start of a `fetchUsage` invocation (overall timeout
armed, nothing decided). -/
def engineInit : EngineState :=
  { decided := false, exited := false, pending := none,
    timeoutArmed := true, killSafetyArmed := false, settled := none }

/-- `settle` from the engine source: a no-op unless both flags hold;
otherwise clear both timers and resolve/reject the outer promise with the
pending outcome (a no-op at the promise level if already settled). -/
def settleProc (s : EngineState) : EngineState :=
  if s.decided && s.exited then
    let s1 := { s with timeoutArmed := false, killSafetyArmed := false }
    match s1.settled with
    | some _ => s1
    | none => { s1 with settled := some (s1.pending.getD none) }
  else s

/-- `finish` from the engine source: latch the decision once (later calls
are no-ops), record the outcome, request process termination, arm the
kill-safety timer, and attempt to settle. -/
def finishProc (s : EngineState) (result : Option ParsedUsage) : EngineState :=
  if s.decided then s
  else settleProc { s with decided := true, pending := some result, killSafetyArmed := true }

/-- The asynchronous events that can reach one `fetchUsage` invocation. -/
inductive EngineEvent where
  | dataDecision (result : Option ParsedUsage)
  | timeoutFire (result : Option ParsedUsage)
  | killSafetyFire
  | exitEvt (parsed : Option ParsedUsage)
deriving DecidableEq

/-- One event dispatch.  `dataDecision r` is the `onData` handler reaching
its `finish(parsed)` call (`onData` returns early once `decided`);
`timeoutFire r` the 60-second timer body (`r` the result of its final
extraction attempt, `none` = nothing parseable); `killSafetyFire` the
5-second kill-safety timer body; `exitEvt p` the `onExit` handler (`p` the
extraction result over the final output). -/
def engineStep (s : EngineState) : EngineEvent → EngineState
  | .dataDecision r => if s.decided then s else finishProc s r
  | .timeoutFire r =>
    if s.timeoutArmed then finishProc { s with timeoutArmed := false } r else s
  | .killSafetyFire =>
    if s.killSafetyArmed then
      let s1 := { s with killSafetyArmed := false }
      if s1.exited then s1 else settleProc { s1 with exited := true }
    else s
  | .exitEvt p =>
    let s1 := { s with exited := true }
    let s2 := if s1.decided then s1 else finishProc s1 p
    settleProc s2

/-- Run one `fetchUsage` invocation under an arbitrary interleaving of
events. -/
def engineRun (evts : List EngineEvent) : EngineState :=
  evts.foldl engineStep engineInit

/-! ### Engine prompt recognition (the `onData` handler)

The `(\d+)%\s*used` global match used by the result-detection step. -/

/-- Anchored occurrence of `(\d+)%\s*used`: a nonempty digit run, `%`,
optional whitespace, `used` (case-insensitive); returns the remainder. -/
def pctUsedHere (s : List Char) : Option (List Char) :=
  let ds := s.takeWhile Char.isDigit
  if ds.isEmpty then none
  else
    match s.dropWhile Char.isDigit with
    | '%' :: r2 => stripLitCI ("used".toList) (dropWS r2)
    | _ => none

/-- Count of the non-overlapping, left-to-right matches of
`/(\d+)%\s*used/gi` (the JS global `match` result length).  Fueled like
`stripAnsiGo`; each scan step consumes at least one character. -/
def countPctUsedGo : Nat → List Char → Nat
  | 0, _ => 0
  | _ + 1, [] => 0
  | fuel + 1, s@(c :: rest) =>
    if c.isDigit then
      match pctUsedHere s with
      | some rem => 1 + countPctUsedGo fuel rem
      | none => countPctUsedGo fuel rest
    else countPctUsedGo fuel rest

def countPctUsed (s : List Char) : Nat := countPctUsedGo s.length s

/-- The engine session state seen by the `onData` handler, with
instrumentation: `fired` records, in order, the recognized prompt
signatures whose keystroke sequence was sent (the `lastAction`
assignments), and `usageSends` counts the `/usage` command sends. -/
structure CliState where
  output : List Char
  usageSent : Bool
  lastAction : String
  decided : Bool
  fired : List String
  usageSends : Nat
  result : Option ParsedUsage

def cliInit : CliState :=
  { output := [], usageSent := false, lastAction := "", decided := false,
    fired := [], usageSends := 0, result := none }

/-- Fire one prompt signature: record the action marker and send its
keystroke sequence (instrumented as an entry of `fired`). -/
def fireSig (s : CliState) (tag : String) : CliState :=
  { s with lastAction := tag, fired := s.fired ++ [tag] }

/-- The prompt-signature cascade of the `onData` handler, abstracted over
the text tests already evaluated on the sanitized accumulated buffer: each
`…Text` flag is the source's `cleaned.includes(...)` combination for that
prompt, `resultReady` the "at least two `% used` occurrences" test, and
`pr` the extraction result that the result-detection step would obtain
(the extractor is pure, so evaluating it eagerly is indistinguishable).
Branches mirror the source's early-return chain. -/
def onDataCore (s0 : CliState) (themeText loginText contText secText termText
    trustText bypassText mainPrompt autoText resultReady : Bool)
    (pr : Option ParsedUsage) : CliState :=
  if themeText && (s0.lastAction != "theme") then
    fireSig s0 ("theme")
  else if loginText && (s0.lastAction != "login-method") then
    fireSig s0 ("login-method")
  else if contText && (s0.lastAction != "login-continue") then
    fireSig s0 ("login-continue")
  else if secText && (s0.lastAction != "security") then
    fireSig s0 ("security")
  else if termText && (s0.lastAction != "terminal-setup") then
    fireSig s0 ("terminal-setup")
  else if trustText && (s0.lastAction != "trust") then
    fireSig s0 ("trust")
  else if bypassText && (s0.lastAction != "bypass") then
    fireSig s0 ("bypass")
  else if mainPrompt && !s0.usageSent then
    { s0 with usageSent := true, usageSends := s0.usageSends + 1 }
  else if s0.usageSent && autoText && (s0.lastAction != "usage-enter") then
    fireSig s0 ("usage-enter")
  else if s0.usageSent && resultReady then
    match pr with
    | some p => { s0 with decided := true, result := some p }
    | none => s0
  else s0

/-- The `onData` handler of the engine source, one chunk: accumulate the
chunk, sanitize the whole buffer, evaluate the prompt-text tests on it,
then walk the signature cascade; finally the main-prompt `/usage` send,
the autocomplete confirmation, and result detection (which latches the
decision).  `now` is the clock value for the `new Date()` inside
`parseUsageOutput`. -/
def onData (s : CliState) (now : Nat) (data : List Char) : CliState :=
  if s.decided then s
  else
    let out := s.output ++ data
    let cleaned := stripAnsi out
    let inc := fun (t : String) => containsStr cleaned t.toList
    onDataCore { s with output := out }
      ((inc ("Darkmode") || inc ("Dark mode")) && (inc ("Lightmode") || inc ("Light mode"))
        && !(inc ("Logged")))
      (inc ("Selectloginmethod") || inc ("Select login method"))
      ((inc ("Loginsuccessful") || inc ("Login successful")) && inc ("continue"))
      ((inc ("Securitynotes") || inc ("Security notes")) && inc ("Enter"))
      ((inc ("terminalsetup") || inc ("terminal setup"))
        && (inc ("recommendedsettings") || inc ("recommended settings")))
      (inc ("trustthisfolder") || inc ("trust this folder"))
      ((inc ("BypassPermissionsmode") || inc ("Bypass Permissions mode"))
        && (inc ("Yes,Iaccept") || inc ("Yes, I accept")))
      (inc ("Welcomeback") || inc ("Welcome back")
        || inc ("bypasspermissionson") || inc ("bypass permissions on"))
      (inc ("Showplanusagelimits") || inc ("Show plan usage limits"))
      (decide (2 ≤ countPctUsed cleaned))
      (parseUsageOutput now (String.mk out))

/-- Run the handler over a scripted sequence of `(arrival time, chunk)`
pairs. -/
def runChunks (chunks : List (Nat × List Char)) : CliState :=
  chunks.foldl (fun s c => onData s c.1 c.2) cliInit

/-! ### Concrete states used by witnesses and counterexamples -/

/-- A notification state with a registered callback and empty records. -/
def notifEmpty : NotifState := { hasCallback := true, notified := fun _ => none }

/-- An initial scheduler state: empty cache and maps, no round in flight. -/
def stEmpty : SchedulerState :=
  { cache := fun _ => none, backoff := fun _ => none, retryTimerActive := fun _ => false,
    notif := notifEmpty, isFetching := false, fetchCount := 0 }

/-- A scheduler state with a round in flight. -/
def stBusy : SchedulerState := { stEmpty with isFetching := true }

/-- A prior snapshot that carries a last-success timestamp but is already
flagged `retrying` (the state after one failed round attempt preserved it). -/
def priorSnap : UsageData :=
  { accountId := "acct", currentSession := 50, sessionResetTime := "2am (Z)",
    weeklyUsage := 10, weeklyResetTime := "Mar 4 at 8pm (Z)",
    lastUpdated := some 100, error := none, retrying := true }

/-- `stEmpty` with `priorSnap` cached for account `acct`. -/
def stWithPrior : SchedulerState :=
  { stEmpty with cache := setFun stEmpty.cache "acct" (some priorSnap) }

/-- One in-range engine result used by witnesses. -/
def okPartial : PartialUsage :=
  { currentSession := some 42, sessionResetTime := some "2am (Z)",
    weeklyUsage := some 7, weeklyResetTime := some "Mar 4 at 8pm (Z)" }

/-- The synthetic sanitized usage report of the extractor round-trip. -/
def sampleUsageOutput : String :=
  "Current session\n42% used\nResets 2am (Zone)\nCurrent week\n7% used\nResets Mar 4 at 8pm (Zone)"

/-- The projection of a parse result that forgets the timestamp field. -/
structure ParsedFields where
  currentSession : Nat
  sessionResetTime : String
  weeklyUsage : Nat
  weeklyResetTime : String
deriving DecidableEq

def dropTimestamp (p : ParsedUsage) : ParsedFields :=
  { currentSession := p.currentSession, sessionResetTime := p.sessionResetTime,
    weeklyUsage := p.weeklyUsage, weeklyResetTime := p.weeklyResetTime }

/-- Bounded-percentage predicate on an optional cached snapshot. -/
def pctOkB (o : Option UsageData) : Bool :=
  match o with
  | none => true
  | some d => decide (d.currentSession ≤ 100) && decide (d.weeklyUsage ≤ 100)

/-- Bounded-percentage predicate on an optional engine result. -/
def partialOkB (o : Option PartialUsage) : Bool :=
  match o with
  | none => true
  | some u =>
    (match u.currentSession with | none => true | some x => decide (x ≤ 100))
      && (match u.weeklyUsage with | none => true | some x => decide (x ≤ 100))

/-- Threshold `T` is recorded as already fired for account `a` and
dimension `d`. -/
def firedD (s : NotifState) (a : String) (d : Dim) (T : Nat) : Prop :=
  T ∈ (match d with
       | Dim.session => ((s.notified a).getD { session := [], weekly := [] }).session
       | Dim.weekly => ((s.notified a).getD { session := [], weekly := [] }).weekly)

/-- The chunk script on which an already-handled signature refires. -/
def refireChunks : List (Nat × List Char) :=
  [(0, ("Darkmode Lightmode").toList), (0, ("Selectloginmethod").toList), (0, ("x").toList)]

/-- A two-event engine trace: a data-handler decision followed by process
exit. -/
def decisionExitTrace : List EngineEvent :=
  [EngineEvent.dataDecision none, EngineEvent.exitEvt none]

/-- A reading value of the dimension an alert refers to. -/
def dimValue (d : Dim) (v w : Nat) : Nat :=
  match d with
  | Dim.session => v
  | Dim.weekly => w

/-- A notification state before `setNotificationCallback` has run. -/
def notifOff : NotifState := { hasCallback := false, notified := fun _ => none }

/-- The two-flag join invariant: the outer promise is settled exactly when
both the decision has been latched and the exit flag is set, and the
kill-safety timer is armed only after a decision. -/
def EngineInv (s : EngineState) : Prop :=
  s.settled.isSome = (s.decided && s.exited) ∧
  (s.killSafetyArmed = true → s.decided = true)

/-- The per-session invariant of the `onData` handler: the fired-signature
log never repeats a signature twice in a row, the `lastAction` marker is
the most recently fired signature, and the `/usage` command has been sent
exactly once if and only if `usageSent` is set. -/
def CliInv (s : CliState) : Prop :=
  List.Chain' (fun x y => x ≠ y) s.fired ∧
  s.fired.getLastD "" = s.lastAction ∧
  s.usageSends = (if s.usageSent then 1 else 0)

/-! ## Theorems -/

/-! ### Backoff (claim C2) -/

theorem backoffIter_succ (n : Nat) :
    backoffIter (n + 1) = some (min (INITIAL_BACKOFF_MS * 2 ^ (n + 1)) MAX_BACKOFF_MS) := by
  induction n with
  | zero => decide
  | succ k ih =>
    show (getNextBackoff (backoffIter (k + 1))).2 = _
    rw [ih]
    simp only [getNextBackoff, Option.getD_some, INITIAL_BACKOFF_MS, MAX_BACKOFF_MS,
      pow_succ 2 (k + 1)]
    generalize (2 : Nat) ^ (k + 1) = x
    congr 1
    omega

/-- C2: the delay used for the `N`-th consecutive retry is
`min(INITIAL_BACKOFF_MS * 2^(N-1), MAX_BACKOFF_MS)` with the source's
constants 5000 and 180000, and after any `resetBackoff` the next delay
returned by `getNextBackoff` is `INITIAL_BACKOFF_MS` again. -/
theorem backoff_delay_formula (n : Nat) (h : 1 ≤ n) (s : Option Nat) :
    nthRetryDelay n = min (INITIAL_BACKOFF_MS * 2 ^ (n - 1)) MAX_BACKOFF_MS ∧
    (getNextBackoff (resetBackoff s)).1 = INITIAL_BACKOFF_MS := by
  refine ⟨?_, rfl⟩
  obtain ⟨m, rfl⟩ : ∃ m, n = m + 1 := ⟨n - 1, by omega⟩
  cases m with
  | zero => decide
  | succ k =>
    show (getNextBackoff (backoffIter (k + 1 + 1 - 1))).1 = _
    rw [Nat.add_sub_cancel, backoffIter_succ]
    simp [getNextBackoff, Nat.add_sub_cancel]

theorem backoff_delay_formula_witness :
    nthRetryDelay 7 = min (INITIAL_BACKOFF_MS * 2 ^ (7 - 1)) MAX_BACKOFF_MS ∧
    (getNextBackoff (resetBackoff (some 40000))).1 = INITIAL_BACKOFF_MS :=
  backoff_delay_formula 7 (by decide) (some 40000)

/-! ### `fireLoop` lemmas (claims C3 and C10) -/

theorem fireLoop_mem_fired (v : Nat) (ts : List Nat) (fired : List Nat) (T : Nat)
    (h : T ∈ fired) : T ∈ (fireLoop v ts fired).2 := by
  induction ts generalizing fired with
  | nil => simpa [fireLoop] using h
  | cons t ts ih =>
    by_cases hc : t ≤ v ∧ fired.contains t = false
    · simp only [fireLoop, if_pos hc]
      exact ih (fired ++ [t]) (by simp [h])
    · simp only [fireLoop, if_neg hc]
      exact ih fired h

theorem fireLoop_no_refire (v : Nat) (ts : List Nat) (fired : List Nat) (T : Nat)
    (h : T ∈ fired) : T ∉ (fireLoop v ts fired).1 := by
  induction ts generalizing fired with
  | nil => simp [fireLoop]
  | cons t ts ih =>
    by_cases hc : t ≤ v ∧ fired.contains t = false
    · have hne : T ≠ t := by
        rintro rfl
        have h2 := hc.2
        rw [← Bool.not_eq_true, List.elem_iff] at h2
        exact h2 h
      simp only [fireLoop, if_pos hc, List.mem_cons, not_or]
      exact ⟨hne, ih (fired ++ [t]) (by simp [h])⟩
    · simp only [fireLoop, if_neg hc]
      exact ih fired h

theorem fireLoop_fired_of_alert (v : Nat) (ts : List Nat) (fired : List Nat) (T : Nat)
    (h : T ∈ (fireLoop v ts fired).1) : T ∈ (fireLoop v ts fired).2 := by
  induction ts generalizing fired with
  | nil => simp [fireLoop] at h
  | cons t ts ih =>
    by_cases hc : t ≤ v ∧ fired.contains t = false
    · simp only [fireLoop, if_pos hc] at h ⊢
      rcases List.mem_cons.mp h with rfl | h2
      · exact fireLoop_mem_fired v ts (fired ++ [T]) T (by simp)
      · exact ih (fired ++ [t]) h2
    · simp only [fireLoop, if_neg hc] at h ⊢
      exact ih fired h

theorem fireLoop_count_one (v : Nat) (ts : List Nat) (fired : List Nat) (T : Nat)
    (hT : T ∈ ts) (hv : T ≤ v) (hf : T ∉ fired) :
    (fireLoop v ts fired).1.count T = 1 := by
  induction ts generalizing fired with
  | nil => simp at hT
  | cons t ts ih =>
    by_cases hc : t ≤ v ∧ fired.contains t = false
    · simp only [fireLoop, if_pos hc, List.count_cons]
      by_cases he : t = T
      · subst he
        have h0 : (fireLoop v ts (fired ++ [t])).1.count t = 0 := by
          rw [List.count_eq_zero]
          exact fireLoop_no_refire v ts (fired ++ [t]) t (by simp)
        simp [h0]
      · have hT2 : T ∈ ts := by
          rcases List.mem_cons.mp hT with rfl | h2
          · exact absurd rfl he
          · exact h2
        have hf2 : T ∉ fired ++ [t] := by
          simp only [List.mem_append, List.mem_singleton, not_or]
          exact ⟨hf, fun h2 => he h2.symm⟩
        simp [ih (fired ++ [t]) hT2 hf2, he, Ne.symm he]
    · simp only [fireLoop, if_neg hc]
      have hT2 : T ∈ ts := by
        rcases List.mem_cons.mp hT with rfl | h2
        · exfalso
          apply hc
          refine ⟨hv, ?_⟩
          rw [← Bool.not_eq_true, List.elem_iff]
          exact hf
        · exact h2
      exact ih fired hT2 hf

/-! ### `checkAndNotify` lemmas (claims C3 and C10) -/

theorem checkAndNotify_spec (s : NotifState) (a n : String) (v w : Nat)
    (h : s.hasCallback = true) :
    (checkAndNotify s a n v w).2
      = (fireLoop v ALERT_THRESHOLDS
            ((s.notified a).getD { session := [], weekly := [] }).session).1.map
          (fun t => Alert.mk a n t Dim.session)
        ++ (fireLoop w ALERT_THRESHOLDS
              ((s.notified a).getD { session := [], weekly := [] }).weekly).1.map
            (fun t => Alert.mk a n t Dim.weekly) ∧
    (checkAndNotify s a n v w).1.notified
      = setFun s.notified a (some
          { session := (fireLoop v ALERT_THRESHOLDS
              ((s.notified a).getD { session := [], weekly := [] }).session).2,
            weekly := (fireLoop w ALERT_THRESHOLDS
              ((s.notified a).getD { session := [], weekly := [] }).weekly).2 }) ∧
    (checkAndNotify s a n v w).1.hasCallback = true := by
  refine ⟨?_, ?_, ?_⟩ <;> simp [checkAndNotify, h]

theorem firedD_preserved (s : NotifState) (b m : String) (v w : Nat)
    (a : String) (d : Dim) (T : Nat) (h : firedD s a d T) :
    firedD (checkAndNotify s b m v w).1 a d T := by
  by_cases hc : s.hasCallback = true
  · obtain ⟨-, h2, -⟩ := checkAndNotify_spec s b m v w hc
    unfold firedD at h ⊢
    rw [h2]
    by_cases hab : a = b
    · subst hab
      simp only [setFun, if_pos rfl, Option.getD_some]
      cases d
      · exact fireLoop_mem_fired _ _ _ _ h
      · exact fireLoop_mem_fired _ _ _ _ h
    · simp only [setFun, if_neg hab]
      exact h
  · rw [Bool.not_eq_true] at hc
    simpa [checkAndNotify, hc] using h

theorem no_refire_checkAndNotify (s : NotifState) (b m : String) (v w : Nat)
    (a : String) (d : Dim) (T : Nat) (h : firedD s a d T) :
    ∀ al ∈ (checkAndNotify s b m v w).2,
      ¬(al.accountId = a ∧ al.dim = d ∧ al.threshold = T) := by
  intro al hal hcontra
  obtain ⟨h1, h2, h3⟩ := hcontra
  by_cases hc : s.hasCallback = true
  · obtain ⟨hA, -, -⟩ := checkAndNotify_spec s b m v w hc
    rw [hA] at hal
    rcases List.mem_append.mp hal with hs | hw
    · obtain ⟨t, ht, rfl⟩ := List.mem_map.mp hs
      simp only at h1 h2 h3
      subst h1; subst h2; subst h3
      unfold firedD at h
      simp only at h
      exact fireLoop_no_refire _ _ _ _ h ht
    · obtain ⟨t, ht, rfl⟩ := List.mem_map.mp hw
      simp only at h1 h2 h3
      subst h1; subst h2; subst h3
      unfold firedD at h
      simp only at h
      exact fireLoop_no_refire _ _ _ _ h ht
  · rw [Bool.not_eq_true] at hc
    simp [checkAndNotify, hc] at hal

theorem alert_records_threshold (s : NotifState) (a n : String) (v w : Nat)
    (T : Nat) (d : Dim)
    (h : Alert.mk a n T d ∈ (checkAndNotify s a n v w).2) :
    firedD (checkAndNotify s a n v w).1 a d T := by
  by_cases hc : s.hasCallback = true
  · obtain ⟨hA, hN, -⟩ := checkAndNotify_spec s a n v w hc
    rw [hA] at h
    unfold firedD
    rw [hN]
    simp only [setFun, if_pos rfl, Option.getD_some]
    rcases List.mem_append.mp h with hs | hw
    · obtain ⟨t, ht, he⟩ := List.mem_map.mp hs
      obtain ⟨-, -, h3, h4⟩ := Alert.mk.injEq .. ▸ he
      subst h3; subst h4
      simp only
      exact fireLoop_fired_of_alert _ _ _ _ ht
    · obtain ⟨t, ht, he⟩ := List.mem_map.mp hw
      obtain ⟨-, -, h3, h4⟩ := Alert.mk.injEq .. ▸ he
      subst h3; subst h4
      simp only
      exact fireLoop_fired_of_alert _ _ _ _ ht
  · rw [Bool.not_eq_true] at hc
    simp [checkAndNotify, hc] at h

theorem runChecks_no_refire (s : NotifState) (a : String) (d : Dim) (T : Nat)
    (h : firedD s a d T) (rs : List Reading) :
    firedD (runChecks s rs).1 a d T ∧
    ∀ al ∈ (runChecks s rs).2, ¬(al.accountId = a ∧ al.dim = d ∧ al.threshold = T) := by
  induction rs generalizing s with
  | nil => exact ⟨h, by simp [runChecks]⟩
  | cons r rs ih =>
    have h1 := firedD_preserved s r.accountId r.accountName r.currentSession r.weeklyUsage
      a d T h
    obtain ⟨ih1, ih2⟩ := ih _ h1
    refine ⟨ih1, ?_⟩
    intro al hal
    simp only [runChecks] at hal
    rcases List.mem_append.mp hal with h2 | h2
    · exact no_refire_checkAndNotify s _ _ _ _ a d T h al h2
    · exact ih2 al h2

/-- C3: once threshold `T` of the fixed set has fired for an account and a
dimension, no subsequent sequence of readings — including dips below `T`
and rises back above it — fires `T` again for that account and dimension
(in the absence of a `resetNotificationRecord` call, which is the only
operation that clears the record). -/
theorem threshold_fires_at_most_once (s : NotifState) (a n : String) (v w T : Nat)
    (d : Dim) (hfire : Alert.mk a n T d ∈ (checkAndNotify s a n v w).2)
    (rs : List Reading) :
    ∀ al ∈ (runChecks (checkAndNotify s a n v w).1 rs).2,
      ¬(al.accountId = a ∧ al.dim = d ∧ al.threshold = T) :=
  (runChecks_no_refire _ a d T (alert_records_threshold s a n v w T d hfire) rs).2

theorem threshold_fires_at_most_once_witness :
    ¬((Alert.mk "a" "A" 90 Dim.session).accountId = "a" ∧
      (Alert.mk "a" "A" 90 Dim.session).dim = Dim.session ∧
      (Alert.mk "a" "A" 90 Dim.session).threshold = 80) :=
  threshold_fires_at_most_once notifEmpty "a" "A" 85 0 80 Dim.session (by decide)
    [{ accountId := "a", accountName := "A", currentSession := 95, weeklyUsage := 50 }]
    (Alert.mk "a" "A" 90 Dim.session) (by decide)

/-! ### Claim C10: behaviour before a callback is registered -/

theorem count_map_alert_eq (a n : String) (ds : Dim) (l : List Nat) (T : Nat) :
    (l.map (fun t => Alert.mk a n t ds)).count (Alert.mk a n T ds) = l.count T := by
  induction l with
  | nil => simp
  | cons t l ih =>
    rcases eq_or_ne T t with rfl | ht
    · simp [List.count_cons, ih]
    · simp [List.count_cons, ih, Alert.mk.injEq, ht, Ne.symm ht]

theorem count_map_alert_ne (a n : String) (ds : Dim) (l : List Nat) (al : Alert)
    (h : al.dim ≠ ds) : (l.map (fun t => Alert.mk a n t ds)).count al = 0 := by
  rw [List.count_eq_zero]
  intro hm
  obtain ⟨t, -, rfl⟩ := List.mem_map.mp hm
  exact h rfl

/-- C10: while no notification callback is registered, `checkAndNotify`
returns without emitting alerts and without touching the
`notifiedThresholds` map (the whole notification state is unchanged); a
threshold crossed during that period is therefore not recorded, and fires
exactly once on the first `checkAndNotify` run with a callback registered
and a reading at or above it. -/
theorem no_callback_frame_then_first_fire (s : NotifState) (a n : String) (v w : Nat)
    (T : Nat) (d : Dim) (h : s.hasCallback = false) (hT : T ∈ ALERT_THRESHOLDS)
    (hv : T ≤ dimValue d v w) (hnot : ¬ firedD s a d T) :
    checkAndNotify s a n v w = (s, []) ∧
    (checkAndNotify { s with hasCallback := true } a n v w).2.count
      (Alert.mk a n T d) = 1 := by
  refine ⟨by simp [checkAndNotify, h], ?_⟩
  obtain ⟨hA, -, -⟩ := checkAndNotify_spec { s with hasCallback := true } a n v w rfl
  rw [hA, List.count_append]
  unfold firedD at hnot
  cases d
  · rw [count_map_alert_eq, count_map_alert_ne _ _ _ _ _ (fun h => Dim.noConfusion h),
      Nat.add_zero]
    exact fireLoop_count_one v ALERT_THRESHOLDS _ T hT hv (by simpa using hnot)
  · rw [count_map_alert_eq, count_map_alert_ne _ _ _ _ _ (fun h => Dim.noConfusion h),
      Nat.zero_add]
    exact fireLoop_count_one w ALERT_THRESHOLDS _ T hT hv (by simpa using hnot)

theorem no_callback_frame_then_first_fire_witness :
    checkAndNotify notifOff "a" "A" 85 0 = (notifOff, []) ∧
    (checkAndNotify { notifOff with hasCallback := true } "a" "A" 85 0).2.count
      (Alert.mk "a" "A" 80 Dim.session) = 1 :=
  no_callback_frame_then_first_fire notifOff "a" "A" 85 0 80 Dim.session rfl
    (by decide) (by decide) (by intro hc; simp [firedD, notifOff] at hc)

/-! ### Claim C4: the round-concurrency guard of `fetchAllUsage` -/

theorem fetchAccountUsage_fetchCount (st : SchedulerState) (a nm : String)
    (o : Option PartialUsage) (now : Nat) :
    (fetchAccountUsage st a nm o now).1.fetchCount = st.fetchCount + 1 := by
  cases o <;> simp [fetchAccountUsage, scheduleRetry]

theorem fetchAccountUsage_isFetching (st : SchedulerState) (a nm : String)
    (o : Option PartialUsage) (now : Nat) :
    (fetchAccountUsage st a nm o now).1.isFetching = st.isFetching := by
  cases o <;> simp [fetchAccountUsage, scheduleRetry]

theorem roundLoop_fetchCount (accounts : List Account) (st : SchedulerState)
    (outcome : String → Option PartialUsage) (now : Nat)
    (results : String → Option UsageData) :
    (roundLoop st accounts outcome now results).1.fetchCount
      = st.fetchCount + (accounts.filter (fun a => a.isActive)).length := by
  induction accounts generalizing st results with
  | nil => simp [roundLoop]
  | cons acct rest ih =>
    by_cases ha : acct.isActive
    · simp only [roundLoop, ha, if_true, ih, fetchAccountUsage_fetchCount,
        List.filter_cons, List.length_cons]
      omega
    · simp only [roundLoop, ha, Bool.false_eq_true, if_false, ih, List.filter_cons]

theorem roundLoop_isFetching (accounts : List Account) (st : SchedulerState)
    (outcome : String → Option PartialUsage) (now : Nat)
    (results : String → Option UsageData) :
    (roundLoop st accounts outcome now results).1.isFetching = st.isFetching := by
  induction accounts generalizing st results with
  | nil => simp [roundLoop]
  | cons acct rest ih =>
    by_cases ha : acct.isActive
    · simp only [roundLoop, ha, if_true, ih, fetchAccountUsage_isFetching]
    · simp only [roundLoop, ha, Bool.false_eq_true, if_false, ih]

/-- C4: at most one acquisition round runs at a time.  A `fetchAllUsage`
invocation that finds `isFetching` already set performs no per-account
acquisition (the state, including the engine-invocation count, is
unchanged) and returns the existing usage cache; an invocation that finds
the flag clear runs the loop on the flag-set state (so each of its active
accounts is acquired exactly once) and leaves the flag cleared when the
round completes. -/
theorem fetchAllUsage_no_overlapping_round (st : SchedulerState)
    (accounts : List Account) (outcome : String → Option PartialUsage) (now : Nat) :
    (st.isFetching = true →
      fetchAllUsage st accounts outcome now = (st, st.cache)) ∧
    (st.isFetching = false →
      (fetchAllUsage st accounts outcome now).1.isFetching = false ∧
      (fetchAllUsage st accounts outcome now).1.fetchCount
        = st.fetchCount + (accounts.filter (fun a => a.isActive)).length) := by
  constructor
  · intro h
    simp [fetchAllUsage, h]
  · intro h
    simp [fetchAllUsage, h, roundLoop_fetchCount]

theorem fetchAllUsage_no_overlapping_round_witness :
    (fetchAllUsage stBusy
        [{ id := "a", name := "A", configDir := "/d", isActive := true }]
        (fun _ => some okPartial) 3 = (stBusy, stBusy.cache)) ∧
    ((fetchAllUsage stEmpty
        [{ id := "a", name := "A", configDir := "/d", isActive := true }]
        (fun _ => some okPartial) 3).1.isFetching = false ∧
      (fetchAllUsage stEmpty
        [{ id := "a", name := "A", configDir := "/d", isActive := true }]
        (fun _ => some okPartial) 3).1.fetchCount
        = stEmpty.fetchCount
          + (([{ id := "a", name := "A", configDir := "/d", isActive := true }] :
              List Account).filter (fun a => a.isActive)).length) :=
  ⟨(fetchAllUsage_no_overlapping_round stBusy
      [{ id := "a", name := "A", configDir := "/d", isActive := true }]
      (fun _ => some okPartial) 3).1 rfl,
    (fetchAllUsage_no_overlapping_round stEmpty
      [{ id := "a", name := "A", configDir := "/d", isActive := true }]
      (fun _ => some okPartial) 3).2 rfl⟩

/-! ### Claim C1: failure paths and the prior snapshot -/

/-- C1 counterexample: with a prior snapshot that has a last-success
timestamp but is flagged `retrying` (the state left by a previous failed
round attempt), a failed isolated retry stores a snapshot whose
`lastUpdated` is cleared to `undefined` instead of the prior timestamp —
so a failed acquisition attempt does not always leave `lastUpdated` equal
to the prior snapshot's value. -/
theorem retry_failure_drops_lastUpdated :
    stWithPrior.cache "acct" = some priorSnap ∧
    priorSnap.lastUpdated = some 100 ∧
    ((retryAttempt stWithPrior "acct" "A" none 7).1.cache "acct").map
        (fun d => d.lastUpdated) = some none ∧
    ((retryAttempt stWithPrior "acct" "A" none 7).1.cache "acct").map
        (fun d => d.lastUpdated) ≠ some priorSnap.lastUpdated ∧
    ((retryAttempt stWithPrior "acct" "A" none 7).1.cache "acct").map
        (fun d => d.currentSession) = some priorSnap.currentSession := by
  refine ⟨rfl, rfl, ?_, ?_, ?_⟩ <;> decide

/-- C1 amended: for an account with a prior snapshot, a failed round
attempt (`fetchAccountUsage`) stores a snapshot whose percentage,
reset-time and `lastUpdated` fields all equal the prior snapshot's, with
`retrying` set; a failed isolated retry preserves the percentage and
reset-time fields likewise, but preserves `lastUpdated` only when the
prior snapshot has a timestamp and is not itself flagged `retrying` —
otherwise it stores `lastUpdated` as absent. -/
theorem failure_preserves_prior_snapshot (st : SchedulerState) (a nm : String)
    (now : Nat) (c : UsageData) (h : st.cache a = some c) :
    (fetchAccountUsage st a nm none now).1.cache a = some (roundFailData a (some c)) ∧
    (roundFailData a (some c)).currentSession = c.currentSession ∧
    (roundFailData a (some c)).sessionResetTime = c.sessionResetTime ∧
    (roundFailData a (some c)).weeklyUsage = c.weeklyUsage ∧
    (roundFailData a (some c)).weeklyResetTime = c.weeklyResetTime ∧
    (roundFailData a (some c)).lastUpdated = c.lastUpdated ∧
    (roundFailData a (some c)).retrying = true ∧
    (retryAttempt st a nm none now).1.cache a = some (retryFailData a (some c) now) ∧
    (retryFailData a (some c) now).currentSession = c.currentSession ∧
    (retryFailData a (some c) now).sessionResetTime = c.sessionResetTime ∧
    (retryFailData a (some c) now).weeklyUsage = c.weeklyUsage ∧
    (retryFailData a (some c) now).weeklyResetTime = c.weeklyResetTime ∧
    (retryFailData a (some c) now).lastUpdated
      = (if c.lastUpdated.isSome ∧ c.retrying = false then c.lastUpdated else none) ∧
    (retryFailData a (some c) now).retrying = true := by
  refine ⟨?_, rfl, rfl, rfl, rfl, rfl, rfl, ?_, ?_, ?_, ?_, ?_, ?_, ?_⟩
  · simp [fetchAccountUsage, scheduleRetry, setFun, h]
  · simp [retryAttempt, scheduleRetry, setFun, h]
  · unfold retryFailData; split <;> rfl
  · unfold retryFailData; split <;> rfl
  · unfold retryFailData; split <;> rfl
  · unfold retryFailData; split <;> rfl
  · cases hl : c.lastUpdated <;> cases hr : c.retrying <;>
      simp [retryFailData, hl, hr]
  · unfold retryFailData; split <;> rfl

theorem failure_preserves_prior_snapshot_witness :
    (fetchAccountUsage stWithPrior "acct" "A" none 7).1.cache "acct"
        = some (roundFailData "acct" (some priorSnap)) ∧
    (roundFailData "acct" (some priorSnap)).currentSession = priorSnap.currentSession ∧
    (roundFailData "acct" (some priorSnap)).sessionResetTime = priorSnap.sessionResetTime ∧
    (roundFailData "acct" (some priorSnap)).weeklyUsage = priorSnap.weeklyUsage ∧
    (roundFailData "acct" (some priorSnap)).weeklyResetTime = priorSnap.weeklyResetTime ∧
    (roundFailData "acct" (some priorSnap)).lastUpdated = priorSnap.lastUpdated ∧
    (roundFailData "acct" (some priorSnap)).retrying = true ∧
    (retryAttempt stWithPrior "acct" "A" none 7).1.cache "acct"
        = some (retryFailData "acct" (some priorSnap) 7) ∧
    (retryFailData "acct" (some priorSnap) 7).currentSession = priorSnap.currentSession ∧
    (retryFailData "acct" (some priorSnap) 7).sessionResetTime = priorSnap.sessionResetTime ∧
    (retryFailData "acct" (some priorSnap) 7).weeklyUsage = priorSnap.weeklyUsage ∧
    (retryFailData "acct" (some priorSnap) 7).weeklyResetTime = priorSnap.weeklyResetTime ∧
    (retryFailData "acct" (some priorSnap) 7).lastUpdated
      = (if priorSnap.lastUpdated.isSome ∧ priorSnap.retrying = false
          then priorSnap.lastUpdated else none) ∧
    (retryFailData "acct" (some priorSnap) 7).retrying = true :=
  failure_preserves_prior_snapshot stWithPrior "acct" "A" 7 priorSnap (by decide)

/-! ### Claim C5: the engine decision/settle protocol -/

theorem settleProc_settled_stable (s : EngineState) (v : Option ParsedUsage)
    (h : s.settled = some v) : (settleProc s).settled = some v := by
  unfold settleProc
  split
  · simp [h]
  · exact h

theorem finishProc_settled_stable (s : EngineState) (r v : Option ParsedUsage)
    (h : s.settled = some v) : (finishProc s r).settled = some v := by
  unfold finishProc
  split
  · exact h
  · exact settleProc_settled_stable _ _ h

theorem engineStep_settled_stable (s : EngineState) (e : EngineEvent)
    (v : Option ParsedUsage) (h : s.settled = some v) :
    (engineStep s e).settled = some v := by
  cases e with
  | dataDecision r =>
    simp only [engineStep]
    split
    · exact h
    · exact finishProc_settled_stable _ _ _ h
  | timeoutFire r =>
    simp only [engineStep]
    split
    · exact finishProc_settled_stable _ _ _ h
    · exact h
  | killSafetyFire =>
    simp only [engineStep]
    split
    · split
      · exact h
      · exact settleProc_settled_stable _ _ h
    · exact h
  | exitEvt p =>
    simp only [engineStep]
    split
    · exact settleProc_settled_stable _ _ h
    · exact settleProc_settled_stable _ _ (finishProc_settled_stable _ _ _ h)

theorem engineInit_inv : EngineInv engineInit := by
  constructor <;> simp [engineInit]

theorem engineStep_inv (s : EngineState) (e : EngineEvent) (h : EngineInv s) :
    EngineInv (engineStep s e) := by
  obtain ⟨h1, h2⟩ := h
  cases e <;>
    cases hd : s.decided <;> cases hx : s.exited <;>
      cases hk : s.killSafetyArmed <;> cases ht : s.timeoutArmed <;>
        cases hs : s.settled <;>
          simp_all [engineStep, finishProc, settleProc, EngineInv]

theorem engineRun_inv (evts : List EngineEvent) : EngineInv (engineRun evts) := by
  suffices hgen : ∀ s, EngineInv s → EngineInv (evts.foldl engineStep s) from
    hgen engineInit engineInit_inv
  induction evts with
  | nil => exact fun s h => h
  | cons e evts ih => exact fun s h => ih _ (engineStep_inv s e h)

theorem foldl_settled_stable (l : List EngineEvent) (s : EngineState)
    (v : Option ParsedUsage) (h : s.settled = some v) :
    (l.foldl engineStep s).settled = some v := by
  induction l generalizing s with
  | nil => exact h
  | cons e l ih => exact ih _ (engineStep_settled_stable s e v h)

/-- C5: in one `fetchUsage` invocation, under every interleaving of data
events, the overall timeout, the kill-safety timer and process exit, the
outer promise is settled exactly when both the decision flag and the exit
flag hold (in particular never before both); once settled, its outcome
never changes under further events (it is resolved or rejected exactly
once); and the decision is latched at most once — `finish` on an
already-decided state is a no-op. -/
theorem fetchUsage_settles_exactly_once (evts more : List EngineEvent)
    (r : Option ParsedUsage) :
    ((engineRun evts).settled.isSome
      = ((engineRun evts).decided && (engineRun evts).exited)) ∧
    (∀ v, (engineRun evts).settled = some v →
      (engineRun (evts ++ more)).settled = some v) ∧
    ((engineRun evts).decided = true → finishProc (engineRun evts) r = engineRun evts) := by
  refine ⟨(engineRun_inv evts).1, ?_, ?_⟩
  · intro v hv
    rw [engineRun, List.foldl_append]
    exact foldl_settled_stable more _ v hv
  · intro hd
    unfold finishProc
    rw [if_pos hd]

theorem fetchUsage_settles_exactly_once_witness :
    ((engineRun decisionExitTrace).settled.isSome
      = ((engineRun decisionExitTrace).decided && (engineRun decisionExitTrace).exited)) ∧
    (engineRun (decisionExitTrace ++ [EngineEvent.killSafetyFire])).settled = some none ∧
    finishProc (engineRun decisionExitTrace) (some ⟨1, "", 2, "", 0⟩)
      = engineRun decisionExitTrace := by
  have h := fetchUsage_settles_exactly_once decisionExitTrace
    [EngineEvent.killSafetyFire] (some ⟨1, "", 2, "", 0⟩)
  exact ⟨h.1, h.2.1 none (by decide), h.2.2 (by decide)⟩

/-! ### Claim C7: extractor round-trip on the synthetic report -/

/-- C7: on the synthetic sanitized report, the extractor recovers the
session percentage 42, session reset time `2am (Zone)`, weekly percentage
7 and weekly reset time `Mar 4 at 8pm (Zone)` (the timestamp field carries
the invocation time). -/
theorem parse_sample_roundtrip (now : Nat) :
    parseUsageOutput now sampleUsageOutput
      = some { currentSession := 42, sessionResetTime := "2am (Zone)",
               weeklyUsage := 7, weeklyResetTime := "Mar 4 at 8pm (Zone)",
               lastUpdated := now } := by
  rfl

/-! ### Claim C8: determinism of `parseUsageOutput` -/

/-- C8 counterexample: the returned record contains `lastUpdated: new
Date()`, so two invocations of `parseUsageOutput` on the same input at
different times yield records that are not equal in all fields. -/
theorem parse_not_time_invariant :
    parseUsageOutput 0 ("Current session 42% used")
      ≠ parseUsageOutput 1 ("Current session 42% used") := by
  decide

/-- C8 amended: `parseUsageOutput` is a pure function of its input except
for the `lastUpdated` timestamp, which records the invocation time: two
invocations on the same input always agree on the match fields
(percentages and reset-time strings) and on whether the result is null,
whatever the two invocation times are. -/
theorem parse_deterministic_amended (t1 t2 : Nat) (s : String) :
    (parseUsageOutput t1 s).map dropTimestamp = (parseUsageOutput t2 s).map dropTimestamp ∧
    ((parseUsageOutput t1 s).isNone ↔ (parseUsageOutput t2 s).isNone) := by
  unfold parseUsageOutput
  dsimp only
  split_ifs with h
  · exact ⟨rfl, Iff.rfl⟩
  · exact ⟨by simp [dropTimestamp], by simp⟩

/-! ### Claim C9: percentages are not clamped to 100 -/

/-- C9 counterexample: terminal output reporting `250% used` parses to a
session percentage of 250, and a successful acquisition stores that value
unchanged in the usage cache — so cached percentages are not always in the
range 0 to 100. -/
theorem stored_pct_can_exceed_100 :
    (parseUsageOutput 0 ("Current session 250% used")).map (fun p => p.currentSession)
      = some 250 ∧
    pctOkB ((fetchAccountUsage stEmpty "acct" "A"
        ((parseUsageOutput 0 ("Current session 250% used")).map toPartial) 0).1.cache
          "acct") = false := by
  refine ⟨?_, ?_⟩ <;> decide

/-- C9 amended: stored percentages are natural numbers; every snapshot the
scheduler stores (success, round failure or retry failure) has both
percentages in the range 0 to 100 provided the engine result's percentages
are at most 100 and the previously cached snapshot's are; the extractor
itself does no clamping (an out-of-range report propagates, as the
counterexample shows). -/
theorem fetchAccountUsage_cache_self (st : SchedulerState) (a nm : String)
    (o : Option PartialUsage) (now : Nat) :
    (fetchAccountUsage st a nm o now).1.cache a
      = some (match o with
              | some u => successData a u now
              | none => roundFailData a (st.cache a)) := by
  cases o <;> simp [fetchAccountUsage, scheduleRetry, setFun]

theorem retryAttempt_cache_self (st : SchedulerState) (a nm : String)
    (o : Option PartialUsage) (now : Nat) :
    (retryAttempt st a nm o now).1.cache a
      = some (match o with
              | some u => successData a u now
              | none => retryFailData a (st.cache a) now) := by
  cases o <;> simp [retryAttempt, scheduleRetry, setFun]

theorem retryFailData_pct (a : String) (co : Option UsageData) (now : Nat) :
    (retryFailData a co now).currentSession = (co.map (fun c => c.currentSession)).getD 0 ∧
    (retryFailData a co now).weeklyUsage = (co.map (fun c => c.weeklyUsage)).getD 0 := by
  unfold retryFailData
  split <;> exact ⟨rfl, rfl⟩

theorem cache_pct_bounded_amended (st : SchedulerState) (a nm : String)
    (o : Option PartialUsage) (now : Nat)
    (hc : pctOkB (st.cache a) = true) (ho : partialOkB o = true) :
    pctOkB ((fetchAccountUsage st a nm o now).1.cache a) = true ∧
    pctOkB ((retryAttempt st a nm o now).1.cache a) = true := by
  rw [fetchAccountUsage_cache_self, retryAttempt_cache_self]
  cases o with
  | some u =>
    constructor <;>
      · simp only [pctOkB, successData, Bool.and_eq_true, decide_eq_true_eq]
        cases hcs : u.currentSession <;> cases hws : u.weeklyUsage <;>
          simp_all [partialOkB]
  | none =>
    constructor
    · simp only [pctOkB, roundFailData, Bool.and_eq_true, decide_eq_true_eq]
      cases hc0 : st.cache a with
      | none => simp
      | some c =>
        rw [hc0] at hc
        simp only [pctOkB, Bool.and_eq_true, decide_eq_true_eq] at hc
        simpa using hc
    · obtain ⟨r1, r2⟩ := retryFailData_pct a (st.cache a) now
      simp only [pctOkB, Bool.and_eq_true, decide_eq_true_eq, r1, r2]
      cases hc0 : st.cache a with
      | none => simp
      | some c =>
        rw [hc0] at hc
        simp only [pctOkB, Bool.and_eq_true, decide_eq_true_eq] at hc
        simpa using hc

theorem cache_pct_bounded_amended_witness :
    pctOkB ((fetchAccountUsage stWithPrior "acct" "A" (some okPartial) 3).1.cache
      "acct") = true ∧
    pctOkB ((retryAttempt stWithPrior "acct" "A" (some okPartial) 3).1.cache
      "acct") = true :=
  cache_pct_bounded_amended stWithPrior "acct" "A" (some okPartial) 3
    (by decide) (by decide)

/-! ### Claim C6: prompt signatures and the `lastAction` marker -/

/-- C6 counterexample: the single `lastAction` marker only blocks an
immediate repeat.  After the theme prompt fires and a different signature
(login method) fires, a further chunk arrives while the theme prompt's
text is still in the accumulated buffer — and the theme signature fires a
second time in the same session. -/
theorem prompt_signature_refires :
    (runChunks refireChunks).fired = ["theme", "login-method", "theme"] ∧
    (runChunks refireChunks).fired.count "theme" = 2 := by
  refine ⟨?_, ?_⟩ <;> decide

theorem chain_ne_concat {l : List String} {t : String}
    (hc : List.Chain' (fun x y => x ≠ y) l) (h : l.getLastD "" ≠ t) :
    List.Chain' (fun x y => x ≠ y) (l ++ [t]) := by
  rcases l with _ | ⟨x, xs⟩
  · simp
  · rw [List.chain'_append]
    refine ⟨hc, List.chain'_singleton t, ?_⟩
    intro a ha b hb
    simp only [List.head?_cons, Option.mem_def, Option.some.injEq] at hb
    subst hb
    rw [List.getLastD_eq_getLast?] at h
    rw [Option.mem_def] at ha
    rw [ha] at h
    simpa using h

theorem fireSig_inv {s : CliState} (h : CliInv s) {t : String}
    (hne : s.lastAction ≠ t) : CliInv (fireSig s t) := by
  obtain ⟨h1, h2, h3⟩ := h
  refine ⟨chain_ne_concat h1 (by rw [h2]; exact hne), ?_, h3⟩
  simp [fireSig, List.getLastD_concat]

set_option maxHeartbeats 1600000 in
theorem onDataCore_inv (s0 : CliState) (b1 b2 b3 b4 b5 b6 b7 b8 b9 b10 : Bool)
    (pr : Option ParsedUsage) (h : CliInv s0) :
    CliInv (onDataCore s0 b1 b2 b3 b4 b5 b6 b7 b8 b9 b10 pr) := by
  unfold onDataCore
  split_ifs with h1 h2 h3 h4 h5 h6 h7 h8 h9 h10
  · simp only [Bool.and_eq_true, bne_iff_ne] at h1
    exact fireSig_inv h h1.2
  · simp only [Bool.and_eq_true, bne_iff_ne] at h2
    exact fireSig_inv h h2.2
  · simp only [Bool.and_eq_true, bne_iff_ne] at h3
    exact fireSig_inv h h3.2
  · simp only [Bool.and_eq_true, bne_iff_ne] at h4
    exact fireSig_inv h h4.2
  · simp only [Bool.and_eq_true, bne_iff_ne] at h5
    exact fireSig_inv h h5.2
  · simp only [Bool.and_eq_true, bne_iff_ne] at h6
    exact fireSig_inv h h6.2
  · simp only [Bool.and_eq_true, bne_iff_ne] at h7
    exact fireSig_inv h h7.2
  · obtain ⟨c1, c2, c3⟩ := h
    simp only [Bool.and_eq_true, Bool.not_eq_true'] at h8
    refine ⟨c1, c2, ?_⟩
    rw [h8.2] at c3
    simp only [Bool.false_eq_true, if_false] at c3
    simp [c3]
  · simp only [Bool.and_eq_true, bne_iff_ne] at h9
    exact fireSig_inv h h9.2
  · split
    · exact h
    · exact h
  · exact h

theorem onData_inv (s : CliState) (now : Nat) (d : List Char) (h : CliInv s) :
    CliInv (onData s now d) := by
  unfold onData
  split
  · exact h
  · exact onDataCore_inv _ _ _ _ _ _ _ _ _ _ _ _ h

set_option maxHeartbeats 1600000 in
theorem onDataCore_fired_length (s0 : CliState)
    (b1 b2 b3 b4 b5 b6 b7 b8 b9 b10 : Bool) (pr : Option ParsedUsage) :
    (onDataCore s0 b1 b2 b3 b4 b5 b6 b7 b8 b9 b10 pr).fired.length
      ≤ s0.fired.length + 1 := by
  unfold onDataCore
  split_ifs <;>
    first
      | simp [fireSig]
      | (split <;> simp)

theorem onData_fired_length (s : CliState) (now : Nat) (d : List Char) :
    (onData s now d).fired.length ≤ s.fired.length + 1 := by
  unfold onData
  split
  · omega
  · exact onDataCore_fired_length _ _ _ _ _ _ _ _ _ _ _ _

theorem cliInit_inv : CliInv cliInit := by
  refine ⟨?_, rfl, rfl⟩
  simp [cliInit]

/-- C6 amended: during one engine session each handler invocation sends at
most one signature keystroke sequence, the same signature never fires twice
in a row (the `lastAction` marker blocks an immediate repeat), and the
`/usage` command is sent at most once; but a signature can fire again after
a different signature has fired while its prompt text persists in the
accumulated buffer, so at-most-once per session does not hold (see the
counterexample). -/
theorem prompt_firing_amended (chunks : List (Nat × List Char)) :
    List.Chain' (fun x y => x ≠ y) (runChunks chunks).fired ∧
    (runChunks chunks).usageSends ≤ 1 ∧
    (runChunks chunks).fired.length ≤ chunks.length := by
  unfold runChunks
  have hInv : ∀ (l : List (Nat × List Char)) (s : CliState), CliInv s →
      CliInv (l.foldl (fun s c => onData s c.1 c.2) s) := by
    intro l
    induction l with
    | nil => exact fun _ h => h
    | cons c l ih => exact fun s h => ih _ (onData_inv s c.1 c.2 h)
  have hLen : ∀ (l : List (Nat × List Char)) (s : CliState),
      (l.foldl (fun s c => onData s c.1 c.2) s).fired.length
        ≤ s.fired.length + l.length := by
    intro l
    induction l with
    | nil => simp
    | cons c l ih =>
      intro s
      have hstep := onData_fired_length s c.1 c.2
      have hrest := ih (onData s c.1 c.2)
      simp only [List.foldl_cons, List.length_cons]
      omega
  obtain ⟨i1, -, i3⟩ := hInv chunks cliInit cliInit_inv
  have hl := hLen chunks cliInit
  refine ⟨i1, ?_, by simpa [cliInit] using hl⟩
  rw [i3]
  split <;> omega

end UsageMonitor
